import Mathlib

/-!
# Verification of the recursive ray tracer

A shallow embedding of the ray-tracing core found in the repository
(`PutPixel`, `IntersectRaySphere`, `ComputeLighting`, `TraceRay`,
`RenderSection` and the band partition of `WinMain`), together with
theorems settling the specification's claims about it.

Modelling conventions:
* `float` scalars are modelled as exact rationals `ℚ`; the C `INFINITY`
  sentinel is modelled with `WithTop ℚ` (written `ℚ∞` below), whose `⊤`
  compares exactly like IEEE `+∞` does in the source's `<` tests.
* `std::sqrt` is threaded through as an explicit parameter `sq : ℚ → ℚ`,
  so theorems hold for every square-root routine; witnesses instantiate
  it with the computable `ratSqrt` defined below.
* `unsigned` colour channels are `ℕ`; the `(unsigned)(float)` cast of the
  colour scaling is truncation (`Int.floor` then `toNat`), and unsigned
  addition wraps modulo `2^32`.
* pointers into the sphere vector (`sphere_tag`, `closest_sphere`) are
  modelled as an optional index into the sphere list together with the
  sphere's value.
-/

namespace Raytracer

abbrev Qinf : Type := WithTop ℚ

/-- Embeds `struct Vector3 { float x, y, z; }`. -/
structure Vector3 where
  x : ℚ
  y : ℚ
  z : ℚ
deriving DecidableEq

/-- Embeds `struct Color { unsigned b, g, r; }`. -/
structure Color where
  b : ℕ
  g : ℕ
  r : ℕ
deriving DecidableEq

/-- Embeds `enum class LightType`. -/
inductive LightType where
  | AMBIENT
  | POINT
  | DIRECTIONAL
deriving DecidableEq

/-- Embeds `struct Sphere`. -/
structure Sphere where
  center : Vector3
  radius : ℚ
  color : Color
  specular : ℤ
  reflective : ℚ
deriving DecidableEq

/-- Embeds `struct Light`. -/
structure Light where
  ltype : LightType
  intensity : ℚ
  position : Vector3
deriving DecidableEq

/-- Embeds `struct Matrix3` (only the rows `line0..line2` are ever read). -/
structure Matrix3 where
  line0 : Vector3
  line1 : Vector3
  line2 : Vector3
deriving DecidableEq

/-- Embeds `const int CANVAS_WIDTH = 600`. -/
def CANVAS_WIDTH : ℤ := 600

/-- Embeds `const int CANVAS_HEIGHT = 600`. -/
def CANVAS_HEIGHT : ℤ := 600

/-- Embeds `const int RECURSION_DEPTH = 3`. -/
def RECURSION_DEPTH : ℤ := 3

/-- Embeds `const float EPSILON = 0.001f` as the exact rational. -/
def EPSILON : ℚ := 1 / 1000

/-- Embeds `const Color BACKGROUND_COLOR = {0, 0, 0}`. -/
def BACKGROUND_COLOR : Color := ⟨0, 0, 0⟩

/-- Embeds `float DotProduct(const Vector3&, const Vector3&)`. -/
def DotProduct (v1 v2 : Vector3) : ℚ :=
  v1.x * v2.x + v1.y * v2.y + v1.z * v2.z

/-- Embeds `Vector3 Subtract(const Vector3&, const Vector3&)`. -/
def SubtractV (v1 v2 : Vector3) : Vector3 :=
  ⟨v1.x - v2.x, v1.y - v2.y, v1.z - v2.z⟩

/-- Embeds `float Length(const Vector3&)` = `std::sqrt(DotProduct(v, v))`;
the square-root routine is the explicit parameter `sq`. -/
def LengthV (sq : ℚ → ℚ) (v : Vector3) : ℚ :=
  sq (DotProduct v v)

/-- Embeds `Vector3 Multiply(float, const Vector3&)`. -/
def MultiplyV (k : ℚ) (v : Vector3) : Vector3 :=
  ⟨k * v.x, k * v.y, k * v.z⟩

/-- Embeds `Vector3 Add(const Vector3&, const Vector3&)`. -/
def AddV (v1 v2 : Vector3) : Vector3 :=
  ⟨v1.x + v2.x, v1.y + v2.y, v1.z + v2.z⟩

/-- Embeds `Color Multiply(float i, const Color& c)`: each channel is `i * channel`
cast back to `unsigned`, i.e. truncated to an integer. -/
def MultiplyC (i : ℚ) (c : Color) : Color :=
  ⟨(⌊i * (c.b : ℚ)⌋).toNat, (⌊i * (c.g : ℚ)⌋).toNat, (⌊i * (c.r : ℚ)⌋).toNat⟩

/-- Embeds `Color Add(const Color&, const Color&)`: channel-wise `unsigned`
addition (wraps modulo `2^32`). -/
def AddC (c1 c2 : Color) : Color :=
  ⟨(c1.b + c2.b) % 2 ^ 32, (c1.g + c2.g) % 2 ^ 32, (c1.r + c2.r) % 2 ^ 32⟩

/-- Embeds `Color Clamp(const Color&)`. -/
def ClampC (c : Color) : Color :=
  ⟨min 255 (max 0 c.b), min 255 (max 0 c.g), min 255 (max 0 c.r)⟩

/-- Embeds `Vector3 MultiplyMV(const Matrix3&, const Vector3&)`. -/
def MultiplyMV (mat : Matrix3) (vec : Vector3) : Vector3 :=
  ⟨DotProduct mat.line0 vec, DotProduct mat.line1 vec, DotProduct mat.line2 vec⟩

/-- Embeds `Vector3 ReflectRayDirection(const Vector3& ray, const Vector3& normal)`. -/
def ReflectRayDirection (ray normal : Vector3) : Vector3 :=
  SubtractV (MultiplyV (2 * DotProduct ray normal) normal) ray

/-- Embeds `Vector3 CanvasToViewport(int, int)` with viewport size 1×1 and
projection plane at z = 1. -/
def CanvasToViewport (canvas_x canvas_y : ℤ) : Vector3 :=
  ⟨(canvas_x : ℚ) * 1 / 600, (canvas_y : ℚ) * 1 / 600, 1⟩

/-- Embeds `IntersectRaySphere(origin, direction, sphere)`:
returns `(∞, ∞)` when the discriminant is negative, otherwise the two
quadratic roots, "+"-root first. -/
def IntersectRaySphere (sq : ℚ → ℚ) (origin direction : Vector3)
    (sphere : Sphere) : Qinf × Qinf :=
  let oc := SubtractV origin sphere.center
  let k1 := DotProduct direction direction
  let k2 := 2 * DotProduct oc direction
  let k3 := DotProduct oc oc - sphere.radius * sphere.radius
  let discriminant := k2 * k2 - 4 * k1 * k3
  if discriminant < 0 then
    (⊤, ⊤)
  else
    (((-k2 + sq discriminant) / (2 * k1) : ℚ), ((-k2 - sq discriminant) / (2 * k1) : ℚ))

/-- The `discriminant` local of `IntersectRaySphere`, factored out so
that theorem statements can refer to it. -/
def discriminant (origin direction : Vector3) (sphere : Sphere) : ℚ :=
  let oc := SubtractV origin sphere.center
  let k1 := DotProduct direction direction
  let k2 := 2 * DotProduct oc direction
  let k3 := DotProduct oc oc - sphere.radius * sphere.radius
  k2 * k2 - 4 * k1 * k3

/-- Kernel-reducible natural square root (largest `k` with `k·k ≤ n`),
used by the executable model of `std::sqrt`. -/
def natSqrt (n : ℕ) : ℕ :=
  (List.range (n + 1)).foldl (fun acc k => if k * k ≤ n then k else acc) 0

/-- Executable model of `std::sqrt` on the rationals: exact on perfect
squares (which is all the concrete witnesses need) and non-negative
everywhere, like the IEEE square root on its defined range. -/
def ratSqrt (q : ℚ) : ℚ :=
  mkRat (natSqrt q.num.toNat) (natSqrt q.den)

/-- Open-interval membership `lo < t < hi` over `ℚ∞`, as used by the
shadow test (`EPSILON < t && t < t_max`) and the closest-hit scan. -/
def inOpen (lo hi t : Qinf) : Prop :=
  lo < t ∧ t < hi

instance (lo hi t : Qinf) : Decidable (inOpen lo hi t) :=
  inferInstanceAs (Decidable (_ ∧ _))

/-- The shadow-scan loop of `ComputeLighting`: walks the sphere list
(`i` is the index of the head within the full scene list), skipping the
tagged self-sphere, and breaks with `true` as soon as either root of
`IntersectRaySphere(point, vec_l, sphere)` lies strictly inside
`(EPSILON, t_max)`. -/
def shadowLoop (sq : ℚ → ℚ) (point vec_l : Vector3) (t_max : Qinf)
    (tag : Option ℕ) : ℕ → List Sphere → Bool
  | _, [] => false
  | i, sphere :: rest =>
    if tag = some i then
      shadowLoop sq point vec_l t_max tag (i + 1) rest
    else
      let ts := IntersectRaySphere sq point vec_l sphere
      if inOpen (EPSILON : ℚ) t_max ts.1 then true
      else if inOpen (EPSILON : ℚ) t_max ts.2 then true
      else shadowLoop sq point vec_l t_max tag (i + 1) rest

/-- The un-shadowed diffuse + specular contribution of one point or
directional light in `ComputeLighting` (the two guarded `intensity +=`
statements). -/
def unshadowedContrib (sq : ℚ → ℚ) (normal view : Vector3) (specular : ℤ)
    (intensity : ℚ) (vec_l : Vector3) : ℚ :=
  let n_dot_l := DotProduct normal vec_l
  let diffuse :=
    if 0 < n_dot_l then
      intensity * n_dot_l / (LengthV sq normal * LengthV sq vec_l)
    else 0
  let specularTerm :=
    if 0 ≤ specular then
      let vec_r := ReflectRayDirection vec_l normal
      let r_dot_v := DotProduct vec_r view
      if 0 < r_dot_v then
        intensity * (r_dot_v / (LengthV sq vec_r * LengthV sq view)) ^ specular.toNat
      else 0
    else 0
  diffuse + specularTerm

/-- Body of one non-ambient iteration of the `ComputeLighting` loop:
shadow test first (`continue` on occlusion), then diffuse + specular. -/
def nonAmbientContrib (sq : ℚ → ℚ) (point normal view : Vector3)
    (spheres : List Sphere) (specular : ℤ) (tag : Option ℕ)
    (intensity : ℚ) (vec_l : Vector3) (t_max : Qinf) : ℚ :=
  if shadowLoop sq point vec_l t_max tag 0 spheres then 0
  else unshadowedContrib sq normal view specular intensity vec_l

/-- One iteration of the `ComputeLighting` light loop. -/
def lightContrib (sq : ℚ → ℚ) (point normal view : Vector3)
    (spheres : List Sphere) (specular : ℤ) (tag : Option ℕ)
    (light : Light) : ℚ :=
  match light.ltype with
  | .AMBIENT => light.intensity
  | .POINT =>
      nonAmbientContrib sq point normal view spheres specular tag
        light.intensity (SubtractV light.position point) ((1 : ℚ) : Qinf)
  | .DIRECTIONAL =>
      nonAmbientContrib sq point normal view spheres specular tag
        light.intensity light.position ⊤

/-- Embeds `ComputeLighting(point, normal, view, lights, spheres, specular,
sphere_tag)`: accumulates each light's contribution starting from 0. -/
def ComputeLighting (sq : ℚ → ℚ) (point normal view : Vector3)
    (lights : List Light) (spheres : List Sphere) (specular : ℤ)
    (tag : Option ℕ) : ℚ :=
  lights.foldl
    (fun intensity light =>
      intensity + lightContrib sq point normal view spheres specular tag light)
    0

/-- The running `closest_t` of the closest-hit scan: `∞` while no sphere
has been selected, otherwise the recorded root. -/
def ctOf : Option (ℚ × ℕ × Sphere) → Qinf
  | none => ⊤
  | some x => (x.1 : ℚ)

/-- The closest-hit scan of `TraceRay`: walks the sphere list (`i` is the
index of the head within the full list), skipping the tagged sphere, and
keeps the smallest root strictly inside `(min_t, max_t)` together with
the index and value of its sphere (the `closest_sphere` pointer).  A `⊤`
root never passes `ts < closest_t`, exactly as `INFINITY` never passes
the source's `<` tests, so `untop' 0` only ever extracts finite roots. -/
def closestLoop (sq : ℚ → ℚ) (origin direction : Vector3) (min_t : ℚ)
    (max_t : Qinf) (tag : Option ℕ) :
    ℕ → List Sphere → Option (ℚ × ℕ × Sphere) → Option (ℚ × ℕ × Sphere)
  | _, [], acc => acc
  | i, sphere :: rest, acc =>
    if tag = some i then
      closestLoop sq origin direction min_t max_t tag (i + 1) rest acc
    else
      let ts := IntersectRaySphere sq origin direction sphere
      let acc1 :=
        if ts.1 < ctOf acc ∧ (min_t : Qinf) < ts.1 ∧ ts.1 < max_t then
          some (ts.1.untop' 0, i, sphere)
        else acc
      let acc2 :=
        if ts.2 < ctOf acc1 ∧ (min_t : Qinf) < ts.2 ∧ ts.2 < max_t then
          some (ts.2.untop' 0, i, sphere)
        else acc1
      closestLoop sq origin direction min_t max_t tag (i + 1) rest acc2

/-- The full closest-hit scan of `TraceRay` over the scene list, started
with `closest_t = INFINITY` and `closest_sphere = nullptr`. -/
def closestIntersection (sq : ℚ → ℚ) (origin direction : Vector3)
    (min_t : ℚ) (max_t : Qinf) (tag : Option ℕ)
    (spheres : List Sphere) : Option (ℚ × ℕ × Sphere) :=
  closestLoop sq origin direction min_t max_t tag 0 spheres none

/-- Embeds `TraceRay(origin, direction, min_t, max_t, spheres, lights,
depth, sphere_tag)`. -/
def TraceRay (sq : ℚ → ℚ) (origin direction : Vector3) (min_t : ℚ)
    (max_t : Qinf) (spheres : List Sphere) (lights : List Light)
    (depth : ℤ) (tag : Option ℕ) : Color :=
  match closestIntersection sq origin direction min_t max_t tag spheres with
  | none => BACKGROUND_COLOR
  | some (closest_t, idx, s) =>
    let point := AddV origin (MultiplyV closest_t direction)
    let normal0 := SubtractV point s.center
    let normal := MultiplyV (1 / LengthV sq normal0) normal0
    let view := MultiplyV (-1) direction
    let light_intensity :=
      ComputeLighting sq point normal view lights spheres s.specular (some idx)
    let local_color := MultiplyC light_intensity s.color
    if h : s.reflective ≤ 0 ∨ depth ≤ 0 then local_color
    else
      let reflected_ray_direction := ReflectRayDirection view normal
      let reflected_color :=
        TraceRay sq point reflected_ray_direction EPSILON ⊤ spheres lights
          (depth - 1) (some idx)
      AddC (MultiplyC (1 - s.reflective) local_color)
        (MultiplyC s.reflective reflected_color)
termination_by depth.toNat
decreasing_by
  simp only [not_or, not_le] at h
  omega

/-- Fuel-indexed variant of `TraceRay`: identical control flow, but each
recursive call costs one unit of fuel and exhausted fuel yields `none`.
`TraceRayFuel fuel … = some c` certifies that the trace completes with
recursion nesting at most `fuel`. -/
def TraceRayFuel (sq : ℚ → ℚ) (fuel : ℕ) (origin direction : Vector3)
    (min_t : ℚ) (max_t : Qinf) (spheres : List Sphere)
    (lights : List Light) (depth : ℤ) (tag : Option ℕ) : Option Color :=
  match closestIntersection sq origin direction min_t max_t tag spheres with
  | none => some BACKGROUND_COLOR
  | some (closest_t, idx, s) =>
    let point := AddV origin (MultiplyV closest_t direction)
    let normal0 := SubtractV point s.center
    let normal := MultiplyV (1 / LengthV sq normal0) normal0
    let view := MultiplyV (-1) direction
    let light_intensity :=
      ComputeLighting sq point normal view lights spheres s.specular (some idx)
    let local_color := MultiplyC light_intensity s.color
    if s.reflective ≤ 0 ∨ depth ≤ 0 then some local_color
    else
      match fuel with
      | 0 => none
      | fuel' + 1 =>
        let reflected_ray_direction := ReflectRayDirection view normal
        match TraceRayFuel sq fuel' point reflected_ray_direction EPSILON ⊤
            spheres lights (depth - 1) (some idx) with
        | none => none
        | some reflected_color =>
          some (AddC (MultiplyC (1 - s.reflective) local_color)
            (MultiplyC s.reflective reflected_color))

/-- The `RGB(color.b, color.g, color.r)` packing written into the
`DWORD` canvas buffer (each macro argument is truncated to a byte). -/
def rgbValue (c : Color) : ℕ :=
  c.b % 256 + 256 * (c.g % 256) + 65536 * (c.r % 256)

/-- Embeds `void PutPixel(int x, int y, const Color&)`: maps the centred canvas
coordinate to device coordinates, and writes one buffer cell only when
the device coordinate is inside the canvas.  The canvas buffer is
modelled as a total map from offsets to stored `DWORD` values. -/
def PutPixel (buf : ℕ → ℕ) (x y : ℤ) (color : Color) : ℕ → ℕ :=
  let x_r := CANVAS_WIDTH / 2 + x
  let y_r := CANVAS_HEIGHT / 2 - y
  if 0 ≤ x_r ∧ x_r < CANVAS_WIDTH ∧ 0 ≤ y_r ∧ y_r < CANVAS_HEIGHT then
    fun offset =>
      if offset = (x_r + CANVAS_WIDTH * y_r).toNat then rgbValue color
      else buf offset
  else buf

/-- The colour computed for one pixel inside `RenderSection`:
viewport direction, camera rotation, `TraceRay` from the camera with
`min_t = 1`, `max_t = ∞`, the configured recursion depth and no excluded
sphere, then clamping. -/
def pixelColor (sq : ℚ → ℚ) (spheres : List Sphere) (lights : List Light)
    (camera_rotation : Matrix3) (camera_position : Vector3)
    (x y : ℤ) : Color :=
  let direction := MultiplyMV camera_rotation (CanvasToViewport x y)
  ClampC (TraceRay sq camera_position direction 1 ⊤ spheres lights
    RECURSION_DEPTH none)

/-- The inner `x` loop of `RenderSection`, over
`x ∈ [-CANVAS_WIDTH/2, CANVAS_WIDTH/2)`. -/
def RenderRow (sq : ℚ → ℚ) (spheres : List Sphere) (lights : List Light)
    (camera_rotation : Matrix3) (camera_position : Vector3) (y : ℤ)
    (buf : ℕ → ℕ) : ℕ → ℕ :=
  ((List.range 600).map (fun (i : ℕ) => (i : ℤ) - 300)).foldl
    (fun b x =>
      PutPixel b x y
        (pixelColor sq spheres lights camera_rotation camera_position x y))
    buf

/-- Embeds `void RenderSection(int start_y, int end_y, ...)`: the `y` loop over
`[start_y, end_y)` of row renders. -/
def RenderSection (sq : ℚ → ℚ) (spheres : List Sphere)
    (lights : List Light) (camera_rotation : Matrix3)
    (camera_position : Vector3) (start_y end_y : ℤ)
    (buf : ℕ → ℕ) : ℕ → ℕ :=
  ((List.range (end_y - start_y).toNat).map
      (fun (i : ℕ) => start_y + (i : ℤ))).foldl
    (fun b y =>
      RenderRow sq spheres lights camera_rotation camera_position y b)
    buf

/-- The row bands `WinMain` hands to its `num_threads` workers:
`section_width = CANVAS_HEIGHT / N` (integer division), band `i` covers
`[i·w − H/2, (i+1)·w − H/2)`, and the last band's end is forced to
`H/2`. -/
def bands (N : ℕ) : List (ℤ × ℤ) :=
  let section_width : ℤ := CANVAS_HEIGHT / (N : ℤ)
  (List.range N).map (fun (i : ℕ) =>
    ((i : ℤ) * section_width - CANVAS_HEIGHT / 2,
     if i = N - 1 then CANVAS_HEIGHT / 2
     else ((i : ℤ) + 1) * section_width - CANVAS_HEIGHT / 2))

/-- Running `RenderSection` once per band, in the order the band list is
given. -/
def renderBands (sq : ℚ → ℚ) (spheres : List Sphere)
    (lights : List Light) (camera_rotation : Matrix3)
    (camera_position : Vector3) (L : List (ℤ × ℤ))
    (buf : ℕ → ℕ) : ℕ → ℕ :=
  L.foldl
    (fun b p =>
      RenderSection sq spheres lights camera_rotation camera_position
        p.1 p.2 b)
    buf

/-- The value stored at buffer offset `off` by whichever pixel maps
there: the device coordinate is decoded as `x_r = off % 600`,
`y_r = off / 600`, i.e. canvas coordinates `x = x_r − 300`,
`y = 300 − y_r`. -/
def pixelValAt (sq : ℚ → ℚ) (spheres : List Sphere) (lights : List Light)
    (camera_rotation : Matrix3) (camera_position : Vector3)
    (off : ℕ) : ℕ :=
  rgbValue (pixelColor sq spheres lights camera_rotation camera_position
    (((off % 600 : ℕ) : ℤ) - 300) (300 - ((off / 600 : ℕ) : ℤ)))

/-! ## Basic facts about the embedded operations -/

lemma ratSqrt_nonneg (q : ℚ) : 0 ≤ ratSqrt q :=
  Rat.mkRat_nonneg (by positivity) _

lemma dot_self_pos (d : Vector3) (hd : d ≠ ⟨0, 0, 0⟩) :
    0 < DotProduct d d := by
  rcases d with ⟨x, y, z⟩
  unfold DotProduct
  by_contra hle
  push_neg at hle
  have h1 := mul_self_nonneg x
  have h2 := mul_self_nonneg y
  have h3 := mul_self_nonneg z
  have hx : x = 0 := mul_self_eq_zero.mp (le_antisymm (by nlinarith) h1)
  have hy : y = 0 := mul_self_eq_zero.mp (le_antisymm (by nlinarith) h2)
  have hz : z = 0 := mul_self_eq_zero.mp (le_antisymm (by nlinarith) h3)
  exact hd (by rw [hx, hy, hz])

/-- Shared root-ordering fact: whenever the direction is non-zero, the
discriminant is non-negative and the square-root routine returns a
non-negative value there, the "+"-root (first component) dominates the
"-"-root (second component), because `k1 = |direction|² > 0`. -/
lemma intersect_snd_le_fst (sq : ℚ → ℚ) (origin direction : Vector3)
    (sphere : Sphere) (hd : direction ≠ ⟨0, 0, 0⟩)
    (hdisc : 0 ≤ discriminant origin direction sphere)
    (hsq : 0 ≤ sq (discriminant origin direction sphere)) :
    (IntersectRaySphere sq origin direction sphere).2 ≤
      (IntersectRaySphere sq origin direction sphere).1 := by
  have hk1 : 0 < DotProduct direction direction := dot_self_pos direction hd
  simp only [discriminant] at hdisc hsq
  simp only [IntersectRaySphere]
  rw [if_neg (not_lt.2 hdisc)]
  simp only [WithTop.coe_le_coe]
  have h2k1 : 0 < 2 * DotProduct direction direction := by linarith
  exact div_le_div_of_nonneg_right (by linarith) (le_of_lt h2k1)

/-- C4: for every origin, non-zero direction and sphere,
`IntersectRaySphere` computes `oc = origin − center`,
`k1 = dot(direction,direction)`, `k2 = 2·dot(oc,direction)`,
`k3 = dot(oc,oc) − radius²`, `discriminant = k2² − 4·k1·k3`, returns
`(∞, ∞)` exactly when the discriminant is negative, and otherwise
returns `((−k2 + √disc)/(2k1), (−k2 − √disc)/(2k1))`. -/
theorem IntersectRaySphere_formula (sq : ℚ → ℚ) (origin direction : Vector3)
    (sphere : Sphere) (hd : direction ≠ ⟨0, 0, 0⟩) :
    (IntersectRaySphere sq origin direction sphere = (⊤, ⊤) ↔
      discriminant origin direction sphere < 0) ∧
    (0 ≤ discriminant origin direction sphere →
      IntersectRaySphere sq origin direction sphere =
        ((((-(2 * DotProduct (SubtractV origin sphere.center) direction) +
              sq (discriminant origin direction sphere)) /
            (2 * DotProduct direction direction) : ℚ) : Qinf),
         (((-(2 * DotProduct (SubtractV origin sphere.center) direction) -
              sq (discriminant origin direction sphere)) /
            (2 * DotProduct direction direction) : ℚ) : Qinf))) := by
  clear hd
  simp only [IntersectRaySphere, discriminant]
  constructor
  · constructor
    · intro h
      by_contra hneg
      rw [if_neg hneg] at h
      exact WithTop.coe_ne_top (congrArg Prod.fst h)
    · intro h
      rw [if_pos h]
  · intro h
    rw [if_neg (not_lt.2 h)]

/-- Witness for C4 at a concrete ray and sphere (the axis-aligned hit
with discriminant 4). -/
theorem IntersectRaySphere_formula_witness :
    (Vector3.mk 0 0 1 ≠ ⟨0, 0, 0⟩) ∧
    ((IntersectRaySphere ratSqrt ⟨0, 0, 0⟩ ⟨0, 0, 1⟩
          ⟨⟨0, 0, 3⟩, 1, ⟨0, 0, 255⟩, 500, 1 / 2⟩ = (⊤, ⊤) ↔
        discriminant ⟨0, 0, 0⟩ ⟨0, 0, 1⟩
          ⟨⟨0, 0, 3⟩, 1, ⟨0, 0, 255⟩, 500, 1 / 2⟩ < 0) ∧
      (0 ≤ discriminant ⟨0, 0, 0⟩ ⟨0, 0, 1⟩
          ⟨⟨0, 0, 3⟩, 1, ⟨0, 0, 255⟩, 500, 1 / 2⟩ →
        IntersectRaySphere ratSqrt ⟨0, 0, 0⟩ ⟨0, 0, 1⟩
            ⟨⟨0, 0, 3⟩, 1, ⟨0, 0, 255⟩, 500, 1 / 2⟩ =
          ((((-(2 * DotProduct
                  (SubtractV ⟨0, 0, 0⟩ (Sphere.center ⟨⟨0, 0, 3⟩, 1, ⟨0, 0, 255⟩, 500, 1 / 2⟩))
                  ⟨0, 0, 1⟩) +
                ratSqrt (discriminant ⟨0, 0, 0⟩ ⟨0, 0, 1⟩
                  ⟨⟨0, 0, 3⟩, 1, ⟨0, 0, 255⟩, 500, 1 / 2⟩)) /
              (2 * DotProduct ⟨0, 0, 1⟩ ⟨0, 0, 1⟩) : ℚ) : Qinf),
           (((-(2 * DotProduct
                  (SubtractV ⟨0, 0, 0⟩ (Sphere.center ⟨⟨0, 0, 3⟩, 1, ⟨0, 0, 255⟩, 500, 1 / 2⟩))
                  ⟨0, 0, 1⟩) -
                ratSqrt (discriminant ⟨0, 0, 0⟩ ⟨0, 0, 1⟩
                  ⟨⟨0, 0, 3⟩, 1, ⟨0, 0, 255⟩, 500, 1 / 2⟩)) /
              (2 * DotProduct ⟨0, 0, 1⟩ ⟨0, 0, 1⟩) : ℚ) : Qinf)))) :=
  ⟨by with_unfolding_all decide,
   IntersectRaySphere_formula ratSqrt ⟨0, 0, 0⟩ ⟨0, 0, 1⟩
     ⟨⟨0, 0, 3⟩, 1, ⟨0, 0, 255⟩, 500, 1 / 2⟩ (by with_unfolding_all decide)⟩

/-- C9 (counterexample): the claim asserts that `t1 ≥ t2` can fail for
some origin, non-zero direction and sphere with non-negative
discriminant; in the exact-arithmetic embedding with the non-negative
square root modelling `std::sqrt` no such input exists. -/
theorem IntersectRaySphere_unordered_counterexample :
    ¬ ∃ (origin direction : Vector3) (sphere : Sphere),
        direction ≠ ⟨0, 0, 0⟩ ∧ 0 ≤ discriminant origin direction sphere ∧
        ¬ ((IntersectRaySphere ratSqrt origin direction sphere).2 ≤
            (IntersectRaySphere ratSqrt origin direction sphere).1) := by
  rintro ⟨origin, direction, sphere, hd, hdisc, hlt⟩
  exact hlt
    (intersect_snd_le_fst ratSqrt origin direction sphere hd hdisc
      (ratSqrt_nonneg _))

/-- C9 (amended): for every origin, non-zero direction and sphere
with non-negative discriminant, and every square-root routine that is
non-negative on the discriminant, the "+"-root `t1` is in fact ≥ the
"-"-root `t2` (since `k1 = |direction|² > 0`); callers nonetheless test
both roots independently against the validity bounds. -/
theorem IntersectRaySphere_roots_ordered (sq : ℚ → ℚ)
    (origin direction : Vector3) (sphere : Sphere)
    (hd : direction ≠ ⟨0, 0, 0⟩)
    (hdisc : 0 ≤ discriminant origin direction sphere)
    (hsq : 0 ≤ sq (discriminant origin direction sphere)) :
    (IntersectRaySphere sq origin direction sphere).2 ≤
      (IntersectRaySphere sq origin direction sphere).1 :=
  intersect_snd_le_fst sq origin direction sphere hd hdisc hsq

/-- Witness for the amended C9 at the concrete axis-aligned hit. -/
theorem IntersectRaySphere_roots_ordered_witness :
    (Vector3.mk 0 0 1 ≠ ⟨0, 0, 0⟩ ∧
      0 ≤ discriminant ⟨0, 0, 0⟩ ⟨0, 0, 1⟩
          ⟨⟨0, 0, 3⟩, 1, ⟨0, 0, 255⟩, 500, 1 / 2⟩ ∧
      0 ≤ ratSqrt (discriminant ⟨0, 0, 0⟩ ⟨0, 0, 1⟩
          ⟨⟨0, 0, 3⟩, 1, ⟨0, 0, 255⟩, 500, 1 / 2⟩)) ∧
    (IntersectRaySphere ratSqrt ⟨0, 0, 0⟩ ⟨0, 0, 1⟩
        ⟨⟨0, 0, 3⟩, 1, ⟨0, 0, 255⟩, 500, 1 / 2⟩).2 ≤
      (IntersectRaySphere ratSqrt ⟨0, 0, 0⟩ ⟨0, 0, 1⟩
        ⟨⟨0, 0, 3⟩, 1, ⟨0, 0, 255⟩, 500, 1 / 2⟩).1 :=
  ⟨⟨by with_unfolding_all decide, by with_unfolding_all decide,
     ratSqrt_nonneg _⟩,
   IntersectRaySphere_roots_ordered ratSqrt ⟨0, 0, 0⟩ ⟨0, 0, 1⟩
     ⟨⟨0, 0, 3⟩, 1, ⟨0, 0, 255⟩, 500, 1 / 2⟩
     (by with_unfolding_all decide) (by with_unfolding_all decide)
     (ratSqrt_nonneg _)⟩

/-! ## The closest-hit scan and TraceRay -/

/-- If no sphere (other than the tagged one) has a root strictly inside
`(min_t, max_t)`, the closest-hit loop never updates its accumulator. -/
lemma closestLoop_no_update (sq : ℚ → ℚ) (origin direction : Vector3)
    (min_t : ℚ) (max_t : Qinf) (tag : Option ℕ) :
    ∀ (ss : List Sphere) (i : ℕ) (acc : Option (ℚ × ℕ × Sphere)),
      (∀ q ∈ ss.enumFrom i, tag ≠ some q.1 →
        ¬ inOpen (min_t : Qinf) max_t
            (IntersectRaySphere sq origin direction q.2).1 ∧
        ¬ inOpen (min_t : Qinf) max_t
            (IntersectRaySphere sq origin direction q.2).2) →
      closestLoop sq origin direction min_t max_t tag i ss acc = acc := by
  intro ss
  induction ss with
  | nil => intro i acc h; rfl
  | cons s rest ih =>
    intro i acc h
    have hrest : ∀ q ∈ rest.enumFrom (i + 1), tag ≠ some q.1 →
        ¬ inOpen (min_t : Qinf) max_t
            (IntersectRaySphere sq origin direction q.2).1 ∧
        ¬ inOpen (min_t : Qinf) max_t
            (IntersectRaySphere sq origin direction q.2).2 :=
      fun q hq => h q (List.mem_cons_of_mem _ hq)
    simp only [closestLoop]
    by_cases htag : tag = some i
    · rw [if_pos htag]
      exact ih (i + 1) acc hrest
    · rw [if_neg htag]
      obtain ⟨h1, h2⟩ := h (i, s) (List.mem_cons_self _ _) htag
      dsimp only at h1 h2
      rw [if_neg (fun hc => h2 ⟨hc.2.1, hc.2.2⟩),
          if_neg (fun hc => h1 ⟨hc.2.1, hc.2.2⟩)]
      exact ih (i + 1) acc hrest

/-- C1: for every ray on which no sphere produces an intersection
root strictly inside `(min_t, max_t)` — after excluding the tagged
self-sphere — `TraceRay` returns exactly the scene background colour,
regardless of the lights, the recursion depth, or the excluded sphere. -/
theorem TraceRay_miss_background (sq : ℚ → ℚ) (origin direction : Vector3)
    (min_t : ℚ) (max_t : Qinf) (spheres : List Sphere)
    (lights : List Light) (depth : ℤ) (tag : Option ℕ)
    (h : ∀ q ∈ spheres.enum, tag ≠ some q.1 →
        ¬ inOpen (min_t : Qinf) max_t
            (IntersectRaySphere sq origin direction q.2).1 ∧
        ¬ inOpen (min_t : Qinf) max_t
            (IntersectRaySphere sq origin direction q.2).2) :
    TraceRay sq origin direction min_t max_t spheres lights depth tag =
      BACKGROUND_COLOR := by
  have hscan :
      closestIntersection sq origin direction min_t max_t tag spheres = none :=
    closestLoop_no_update sq origin direction min_t max_t tag spheres 0 none h
  rw [TraceRay.eq_def, hscan]

/-- Witness for C1: a ray pointing away from the only sphere in the
scene (negative discriminant) yields the background colour. -/
theorem TraceRay_miss_background_witness :
    (∀ q ∈ ([⟨⟨0, 0, 3⟩, 1, ⟨0, 0, 255⟩, 500, 1 / 2⟩] : List Sphere).enum,
        (none : Option ℕ) ≠ some q.1 →
        ¬ inOpen ((1 : ℚ) : Qinf) ⊤
            (IntersectRaySphere ratSqrt ⟨0, 0, 0⟩ ⟨0, 1, 0⟩ q.2).1 ∧
        ¬ inOpen ((1 : ℚ) : Qinf) ⊤
            (IntersectRaySphere ratSqrt ⟨0, 0, 0⟩ ⟨0, 1, 0⟩ q.2).2) ∧
    TraceRay ratSqrt ⟨0, 0, 0⟩ ⟨0, 1, 0⟩ 1 ⊤
        [⟨⟨0, 0, 3⟩, 1, ⟨0, 0, 255⟩, 500, 1 / 2⟩] [] 3 none =
      BACKGROUND_COLOR :=
  ⟨by with_unfolding_all decide,
   TraceRay_miss_background ratSqrt ⟨0, 0, 0⟩ ⟨0, 1, 0⟩ 1 ⊤
     [⟨⟨0, 0, 3⟩, 1, ⟨0, 0, 255⟩, 500, 1 / 2⟩] [] 3 none
     (by with_unfolding_all decide)⟩

/-- The local colour `TraceRay` computes at a hit `(t, idx, s)`:
`Multiply(ComputeLighting(point, normal, view, …), sphere.color)` with
the source's hit point, unit normal and view direction. -/
def localColorAt (sq : ℚ → ℚ) (origin direction : Vector3) (t : ℚ)
    (idx : ℕ) (s : Sphere) (spheres : List Sphere)
    (lights : List Light) : Color :=
  let point := AddV origin (MultiplyV t direction)
  let normal0 := SubtractV point s.center
  let normal := MultiplyV (1 / LengthV sq normal0) normal0
  let view := MultiplyV (-1) direction
  MultiplyC
    (ComputeLighting sq point normal view lights spheres s.specular (some idx))
    s.color

/-- C3: whenever the closest-hit scan selects a sphere whose
reflectivity is ≤ 0 or when the depth budget is ≤ 0, `TraceRay` returns
the unclamped local colour `Multiply(light_intensity, sphere.color)`,
and it does so without any recursive call: the zero-fuel run already
succeeds with the same colour. -/
theorem TraceRay_base_local_color (sq : ℚ → ℚ) (origin direction : Vector3)
    (min_t : ℚ) (max_t : Qinf) (spheres : List Sphere)
    (lights : List Light) (depth : ℤ) (tag : Option ℕ)
    (t : ℚ) (idx : ℕ) (s : Sphere)
    (hscan : closestIntersection sq origin direction min_t max_t tag spheres =
      some (t, idx, s))
    (hbase : s.reflective ≤ 0 ∨ depth ≤ 0) :
    TraceRay sq origin direction min_t max_t spheres lights depth tag =
      localColorAt sq origin direction t idx s spheres lights ∧
    TraceRayFuel sq 0 origin direction min_t max_t spheres lights depth tag =
      some (localColorAt sq origin direction t idx s spheres lights) := by
  constructor
  · rw [TraceRay.eq_def, hscan]
    simp only [localColorAt]
    rw [dif_pos hbase]
  · rw [TraceRayFuel.eq_def, hscan]
    simp only [localColorAt]
    rw [if_pos hbase]

set_option maxRecDepth 100000 in
/-- Witness for C3: a head-on hit on a reflective sphere with the depth
budget already exhausted returns the local colour with zero fuel. -/
theorem TraceRay_base_local_color_witness :
    (closestIntersection ratSqrt ⟨0, 0, 0⟩ ⟨0, 0, 1⟩ 1 ⊤ none
        [⟨⟨0, 0, 3⟩, 1, ⟨0, 0, 255⟩, 500, 1 / 2⟩] =
      some (2, 0, ⟨⟨0, 0, 3⟩, 1, ⟨0, 0, 255⟩, 500, 1 / 2⟩) ∧
      ((⟨⟨0, 0, 3⟩, 1, ⟨0, 0, 255⟩, 500, 1 / 2⟩ : Sphere).reflective ≤ 0 ∨
        (0 : ℤ) ≤ 0)) ∧
    (TraceRay ratSqrt ⟨0, 0, 0⟩ ⟨0, 0, 1⟩ 1 ⊤
        [⟨⟨0, 0, 3⟩, 1, ⟨0, 0, 255⟩, 500, 1 / 2⟩] [] 0 none =
      localColorAt ratSqrt ⟨0, 0, 0⟩ ⟨0, 0, 1⟩ 2 0
        ⟨⟨0, 0, 3⟩, 1, ⟨0, 0, 255⟩, 500, 1 / 2⟩
        [⟨⟨0, 0, 3⟩, 1, ⟨0, 0, 255⟩, 500, 1 / 2⟩] [] ∧
    TraceRayFuel ratSqrt 0 ⟨0, 0, 0⟩ ⟨0, 0, 1⟩ 1 ⊤
        [⟨⟨0, 0, 3⟩, 1, ⟨0, 0, 255⟩, 500, 1 / 2⟩] [] 0 none =
      some (localColorAt ratSqrt ⟨0, 0, 0⟩ ⟨0, 0, 1⟩ 2 0
        ⟨⟨0, 0, 3⟩, 1, ⟨0, 0, 255⟩, 500, 1 / 2⟩
        [⟨⟨0, 0, 3⟩, 1, ⟨0, 0, 255⟩, 500, 1 / 2⟩] [])) :=
  ⟨⟨by with_unfolding_all decide, Or.inr le_rfl⟩,
   TraceRay_base_local_color ratSqrt ⟨0, 0, 0⟩ ⟨0, 0, 1⟩ 1 ⊤
     [⟨⟨0, 0, 3⟩, 1, ⟨0, 0, 255⟩, 500, 1 / 2⟩] [] 0 none 2 0
     ⟨⟨0, 0, 3⟩, 1, ⟨0, 0, 255⟩, 500, 1 / 2⟩
     (by with_unfolding_all decide) (Or.inr le_rfl)⟩

/-- C2: whenever the closest-hit scan selects a sphere with
reflectivity > 0 and the depth budget is > 0, `TraceRay` returns
`Add(Multiply(1 − reflective, localColor),
Multiply(reflective, reflectedColor))`, where `reflectedColor` is the
recursive `TraceRay` from the hit point along
`ReflectRayDirection(view, normal)` with `min_t = EPSILON`,
`max_t = +∞`, `depth − 1`, and the hit sphere excluded. -/
theorem TraceRay_reflection_blend (sq : ℚ → ℚ) (origin direction : Vector3)
    (min_t : ℚ) (max_t : Qinf) (spheres : List Sphere)
    (lights : List Light) (depth : ℤ) (tag : Option ℕ)
    (t : ℚ) (idx : ℕ) (s : Sphere)
    (hscan : closestIntersection sq origin direction min_t max_t tag spheres =
      some (t, idx, s))
    (hrefl : 0 < s.reflective) (hdepth : 0 < depth) :
    TraceRay sq origin direction min_t max_t spheres lights depth tag =
      (let point := AddV origin (MultiplyV t direction)
       let normal0 := SubtractV point s.center
       let normal := MultiplyV (1 / LengthV sq normal0) normal0
       let view := MultiplyV (-1) direction
       AddC
         (MultiplyC (1 - s.reflective)
           (localColorAt sq origin direction t idx s spheres lights))
         (MultiplyC s.reflective
           (TraceRay sq point (ReflectRayDirection view normal) EPSILON ⊤
             spheres lights (depth - 1) (some idx)))) := by
  rw [TraceRay.eq_def, hscan]
  simp only [localColorAt]
  rw [dif_neg (by push_neg; exact ⟨hrefl, hdepth⟩)]

set_option maxRecDepth 100000 in
/-- Witness for C2: a head-on hit on a half-mirror sphere with one unit
of depth budget blends the local colour with the reflected trace. -/
theorem TraceRay_reflection_blend_witness :
    (closestIntersection ratSqrt ⟨0, 0, 0⟩ ⟨0, 0, 1⟩ 1 ⊤ none
        [⟨⟨0, 0, 3⟩, 1, ⟨0, 0, 255⟩, 500, 1 / 2⟩] =
      some (2, 0, ⟨⟨0, 0, 3⟩, 1, ⟨0, 0, 255⟩, 500, 1 / 2⟩) ∧
      (0 : ℚ) < (⟨⟨0, 0, 3⟩, 1, ⟨0, 0, 255⟩, 500, 1 / 2⟩ : Sphere).reflective ∧
      (0 : ℤ) < 1) ∧
    TraceRay ratSqrt ⟨0, 0, 0⟩ ⟨0, 0, 1⟩ 1 ⊤
        [⟨⟨0, 0, 3⟩, 1, ⟨0, 0, 255⟩, 500, 1 / 2⟩] [] 1 none =
      (let point := AddV ⟨0, 0, 0⟩ (MultiplyV 2 ⟨0, 0, 1⟩)
       let normal0 := SubtractV point
         (Sphere.center ⟨⟨0, 0, 3⟩, 1, ⟨0, 0, 255⟩, 500, 1 / 2⟩)
       let normal := MultiplyV (1 / LengthV ratSqrt normal0) normal0
       let view := MultiplyV (-1) ⟨0, 0, 1⟩
       AddC
         (MultiplyC (1 - (⟨⟨0, 0, 3⟩, 1, ⟨0, 0, 255⟩, 500, 1 / 2⟩ : Sphere).reflective)
           (localColorAt ratSqrt ⟨0, 0, 0⟩ ⟨0, 0, 1⟩ 2 0
             ⟨⟨0, 0, 3⟩, 1, ⟨0, 0, 255⟩, 500, 1 / 2⟩
             [⟨⟨0, 0, 3⟩, 1, ⟨0, 0, 255⟩, 500, 1 / 2⟩] []))
         (MultiplyC (⟨⟨0, 0, 3⟩, 1, ⟨0, 0, 255⟩, 500, 1 / 2⟩ : Sphere).reflective
           (TraceRay ratSqrt point (ReflectRayDirection view normal) EPSILON ⊤
             [⟨⟨0, 0, 3⟩, 1, ⟨0, 0, 255⟩, 500, 1 / 2⟩] [] (1 - 1) (some 0)))) :=
  ⟨⟨by with_unfolding_all decide, by with_unfolding_all decide, by decide⟩,
   TraceRay_reflection_blend ratSqrt ⟨0, 0, 0⟩ ⟨0, 0, 1⟩ 1 ⊤
     [⟨⟨0, 0, 3⟩, 1, ⟨0, 0, 255⟩, 500, 1 / 2⟩] [] 1 none 2 0
     ⟨⟨0, 0, 3⟩, 1, ⟨0, 0, 255⟩, 500, 1 / 2⟩
     (by with_unfolding_all decide) (by with_unfolding_all decide) (by decide)⟩

/-- C6: `TraceRay` terminates on every input with recursion nesting
bounded by the depth budget: the fuel-indexed run with any fuel ≥
`depth.toNat` completes (never exhausts its fuel, since the depth
argument strictly decreases and depth ≤ 0 always returns without
recursing) and computes exactly `TraceRay`. -/
theorem TraceRayFuel_complete (sq : ℚ → ℚ) (spheres : List Sphere)
    (lights : List Light) :
    ∀ (fuel : ℕ) (depth : ℤ), depth.toNat ≤ fuel →
      ∀ (origin direction : Vector3) (min_t : ℚ) (max_t : Qinf)
        (tag : Option ℕ),
        TraceRayFuel sq fuel origin direction min_t max_t spheres lights
            depth tag =
          some (TraceRay sq origin direction min_t max_t spheres lights
            depth tag) := by
  intro fuel
  induction fuel with
  | zero =>
    intro depth hdepth origin direction min_t max_t tag
    rw [TraceRayFuel.eq_def, TraceRay.eq_def]
    rcases hscan : closestIntersection sq origin direction min_t max_t tag
        spheres with _ | ⟨t, idx, s⟩
    · rfl
    · have hle : depth ≤ 0 := by omega
      dsimp only
      rw [if_pos (Or.inr hle), dif_pos (Or.inr hle)]
  | succ fuel ih =>
    intro depth hdepth origin direction min_t max_t tag
    rw [TraceRayFuel.eq_def, TraceRay.eq_def]
    rcases hscan : closestIntersection sq origin direction min_t max_t tag
        spheres with _ | ⟨t, idx, s⟩
    · rfl
    · dsimp only
      by_cases hbase : s.reflective ≤ 0 ∨ depth ≤ 0
      · rw [if_pos hbase, dif_pos hbase]
      · rw [if_neg hbase, dif_neg hbase]
        have hd1 : (depth - 1).toNat ≤ fuel := by
          simp only [not_or, not_le] at hbase
          omega
        rw [ih (depth - 1) hd1]

/-- Witness for C6 at a concrete reflective scene: fuel 3 suffices for a
depth-3 trace. -/
theorem TraceRayFuel_complete_witness :
    ((3 : ℤ).toNat ≤ 3) ∧
    TraceRayFuel ratSqrt 3 ⟨0, 0, 0⟩ ⟨0, 0, 1⟩ 1 ⊤
        [⟨⟨0, 0, 3⟩, 1, ⟨0, 0, 255⟩, 500, 1 / 2⟩] [] 3 none =
      some (TraceRay ratSqrt ⟨0, 0, 0⟩ ⟨0, 0, 1⟩ 1 ⊤
        [⟨⟨0, 0, 3⟩, 1, ⟨0, 0, 255⟩, 500, 1 / 2⟩] [] 3 none) :=
  ⟨by decide,
   TraceRayFuel_complete ratSqrt [⟨⟨0, 0, 3⟩, 1, ⟨0, 0, 255⟩, 500, 1 / 2⟩] []
     3 3 (by decide) ⟨0, 0, 0⟩ ⟨0, 0, 1⟩ 1 ⊤ none⟩

/-! ## The lighting evaluator -/

lemma foldl_add_eq_sum (f : Light → ℚ) :
    ∀ (l : List Light) (a : ℚ),
      l.foldl (fun acc light => acc + f light) a = a + (l.map f).sum := by
  intro l
  induction l with
  | nil => intro a; simp
  | cons x xs ih =>
    intro a
    simp only [List.foldl_cons, List.map_cons, List.sum_cons]
    rw [ih]
    ring

/-- The imperative shadow loop (with its early `break`s and the
`sphere_tag` skip) detects an occluder exactly when some sphere other
than the tagged one has a root strictly inside `(EPSILON, t_max)`. -/
lemma shadowLoop_eq_true_iff (sq : ℚ → ℚ) (point vec_l : Vector3)
    (t_max : Qinf) (tag : Option ℕ) :
    ∀ (ss : List Sphere) (i : ℕ),
      shadowLoop sq point vec_l t_max tag i ss = true ↔
        ∃ q ∈ ss.enumFrom i, tag ≠ some q.1 ∧
          (inOpen (EPSILON : ℚ) t_max
              (IntersectRaySphere sq point vec_l q.2).1 ∨
           inOpen (EPSILON : ℚ) t_max
              (IntersectRaySphere sq point vec_l q.2).2) := by
  intro ss
  induction ss with
  | nil => intro i; simp [shadowLoop]
  | cons s rest ih =>
    intro i
    simp only [shadowLoop, List.enumFrom_cons, List.exists_mem_cons_iff]
    by_cases htag : tag = some i
    · rw [if_pos htag]
      rw [ih (i + 1)]
      constructor
      · intro h; exact Or.inr h
      · rintro (⟨hne, _⟩ | h)
        · exact absurd htag hne
        · exact h
    · rw [if_neg htag]
      by_cases h1 : inOpen (EPSILON : ℚ) t_max
          (IntersectRaySphere sq point vec_l s).1
      · simp only [if_pos h1, true_iff]
        exact Or.inl ⟨htag, Or.inl h1⟩
      · rw [if_neg h1]
        by_cases h2 : inOpen (EPSILON : ℚ) t_max
            (IntersectRaySphere sq point vec_l s).2
        · simp only [if_pos h2, true_iff]
          exact Or.inl ⟨htag, Or.inr h2⟩
        · rw [if_neg h2, ih (i + 1)]
          constructor
          · intro h; exact Or.inr h
          · rintro (⟨_, hroot⟩ | h)
            · exact absurd hroot (by simp [h1, h2])
            · exact h

/-- C5: in `ComputeLighting` an Ambient light adds its intensity
unconditionally; a Point light uses the light vector
`light.position − point` with maximum shadow distance `t_max = 1.0`; a
Directional light uses the light vector `light.position` with
`t_max = +∞`; and the light's entire diffuse + specular contribution is
skipped if and only if some sphere other than the self-sphere yields an
intersection root strictly inside `(EPSILON, t_max)` along the ray
`(point, light vector)`. -/
theorem ComputeLighting_characterization (sq : ℚ → ℚ)
    (point normal view : Vector3) (lights : List Light)
    (spheres : List Sphere) (specular : ℤ) (tag : Option ℕ) :
    ComputeLighting sq point normal view lights spheres specular tag =
      (lights.map (fun light =>
        match light.ltype with
        | .AMBIENT => light.intensity
        | .POINT =>
          if ∃ q ∈ spheres.enum, tag ≠ some q.1 ∧
              (inOpen (EPSILON : ℚ) ((1 : ℚ) : Qinf)
                  (IntersectRaySphere sq point
                    (SubtractV light.position point) q.2).1 ∨
               inOpen (EPSILON : ℚ) ((1 : ℚ) : Qinf)
                  (IntersectRaySphere sq point
                    (SubtractV light.position point) q.2).2)
          then 0
          else unshadowedContrib sq normal view specular light.intensity
            (SubtractV light.position point)
        | .DIRECTIONAL =>
          if ∃ q ∈ spheres.enum, tag ≠ some q.1 ∧
              (inOpen (EPSILON : ℚ) ⊤
                  (IntersectRaySphere sq point light.position q.2).1 ∨
               inOpen (EPSILON : ℚ) ⊤
                  (IntersectRaySphere sq point light.position q.2).2)
          then 0
          else unshadowedContrib sq normal view specular light.intensity
            light.position)).sum := by
  unfold ComputeLighting
  rw [foldl_add_eq_sum, zero_add]
  congr 1
  apply List.map_congr_left
  intro light _
  unfold lightContrib nonAmbientContrib
  rcases light with ⟨lt, intensity, position⟩
  cases lt
  · rfl
  · exact if_congr (shadowLoop_eq_true_iff sq point _ _ tag spheres 0) rfl rfl
  · exact if_congr (shadowLoop_eq_true_iff sq point _ _ tag spheres 0) rfl rfl

lemma unshadowedContrib_nonneg (sq : ℚ → ℚ) (normal view : Vector3)
    (specular : ℤ) (intensity : ℚ) (vec_l : Vector3)
    (hi : 0 ≤ intensity) (hsq : ∀ x, 0 ≤ sq x) :
    0 ≤ unshadowedContrib sq normal view specular intensity vec_l := by
  unfold unshadowedContrib
  apply add_nonneg
  · split
    · apply div_nonneg
      · exact mul_nonneg hi (le_of_lt (by assumption))
      · exact mul_nonneg (hsq _) (hsq _)
    · exact le_rfl
  · split
    · dsimp only
      split
      · apply mul_nonneg hi
        apply pow_nonneg
        apply div_nonneg (le_of_lt (by assumption))
        exact mul_nonneg (hsq _) (hsq _)
      · exact le_rfl
    · exact le_rfl

lemma lightContrib_nonneg (sq : ℚ → ℚ) (point normal view : Vector3)
    (spheres : List Sphere) (specular : ℤ) (tag : Option ℕ)
    (light : Light) (hi : 0 ≤ light.intensity) (hsq : ∀ x, 0 ≤ sq x) :
    0 ≤ lightContrib sq point normal view spheres specular tag light := by
  unfold lightContrib nonAmbientContrib
  rcases light with ⟨lt, intensity, position⟩
  cases lt
  · exact hi
  · dsimp only
    split
    · exact le_rfl
    · exact unshadowedContrib_nonneg sq normal view specular _ _ hi hsq
  · dsimp only
    split
    · exact le_rfl
    · exact unshadowedContrib_nonneg sq normal view specular _ _ hi hsq

lemma foldl_add_nonneg (f : Light → ℚ) :
    ∀ (l : List Light) (a : ℚ), 0 ≤ a → (∀ x ∈ l, 0 ≤ f x) →
      0 ≤ l.foldl (fun acc light => acc + f light) a := by
  intro l
  induction l with
  | nil => intro a ha _; exact ha
  | cons x xs ih =>
    intro a ha h
    simp only [List.foldl_cons]
    exact ih (a + f x)
      (add_nonneg ha (h x (List.mem_cons_self _ _)))
      (fun y hy => h y (List.mem_cons_of_mem _ hy))

/-- C8: with non-negative light intensities (and a non-negative
square-root routine, as `std::sqrt` is), `ComputeLighting` returns a
non-negative intensity: the accumulator starts at zero and every added
term — ambient intensity, the guarded diffuse term, the guarded
specular term — is non-negative. -/
theorem ComputeLighting_nonneg (sq : ℚ → ℚ) (point normal view : Vector3)
    (lights : List Light) (spheres : List Sphere) (specular : ℤ)
    (tag : Option ℕ) (hl : ∀ light ∈ lights, 0 ≤ light.intensity)
    (hsq : ∀ x, 0 ≤ sq x) :
    0 ≤ ComputeLighting sq point normal view lights spheres specular tag := by
  unfold ComputeLighting
  exact foldl_add_nonneg _ lights 0 le_rfl
    (fun light hlight =>
      lightContrib_nonneg sq point normal view spheres specular tag light
        (hl light hlight) hsq)

/-- Witness for C8: one ambient plus one point light, both of
non-negative intensity, over a one-sphere scene. -/
theorem ComputeLighting_nonneg_witness :
    ((∀ light ∈ ([⟨.AMBIENT, 1 / 5, ⟨0, 0, 0⟩⟩,
        ⟨.POINT, 3 / 5, ⟨2, 1, 0⟩⟩] : List Light), 0 ≤ light.intensity) ∧
      (∀ x : ℚ, 0 ≤ ratSqrt x)) ∧
    0 ≤ ComputeLighting ratSqrt ⟨0, 0, 2⟩ ⟨0, 0, -1⟩ ⟨0, 0, -1⟩
        [⟨.AMBIENT, 1 / 5, ⟨0, 0, 0⟩⟩, ⟨.POINT, 3 / 5, ⟨2, 1, 0⟩⟩]
        [⟨⟨0, 0, 3⟩, 1, ⟨0, 0, 255⟩, 500, 1 / 2⟩] 500 (some 0) :=
  ⟨⟨by with_unfolding_all decide, fun x => ratSqrt_nonneg x⟩,
   ComputeLighting_nonneg ratSqrt ⟨0, 0, 2⟩ ⟨0, 0, -1⟩ ⟨0, 0, -1⟩
     [⟨.AMBIENT, 1 / 5, ⟨0, 0, 0⟩⟩, ⟨.POINT, 3 / 5, ⟨2, 1, 0⟩⟩]
     [⟨⟨0, 0, 3⟩, 1, ⟨0, 0, 255⟩, 500, 1 / 2⟩] 500 (some 0)
     (by with_unfolding_all decide) (fun x => ratSqrt_nonneg x)⟩

/-! ## The frame driver -/

/-- Pointwise description of a `PutPixel` call: offsets other than the
mapped one (and every offset, when the device coordinate is out of
range) keep their previous buffer value. -/
lemma PutPixel_apply (buf : ℕ → ℕ) (x y : ℤ) (c : Color) (off : ℕ) :
    PutPixel buf x y c off =
      if (0 ≤ 300 + x ∧ 300 + x < 600 ∧ 0 ≤ 300 - y ∧ 300 - y < 600) ∧
          (off : ℤ) = (300 + x) + 600 * (300 - y)
      then rgbValue c else buf off := by
  unfold PutPixel
  simp only [CANVAS_WIDTH, CANVAS_HEIGHT]
  rw [apply_ite (fun g : ℕ → ℕ => g off)]
  split_ifs with h1 h2 h3 <;> first | rfl | (exfalso; omega)

/-- Whenever a pixel write lands on offset `off`, the written value is
the pure function `pixelValAt` of `off` alone. -/
lemma pixel_write_value (sq : ℚ → ℚ) (spheres : List Sphere)
    (lights : List Light) (camera_rotation : Matrix3)
    (camera_position : Vector3) (x y : ℤ) (off : ℕ)
    (h : (0 ≤ 300 + x ∧ 300 + x < 600 ∧ 0 ≤ 300 - y ∧ 300 - y < 600) ∧
        (off : ℤ) = (300 + x) + 600 * (300 - y)) :
    rgbValue (pixelColor sq spheres lights camera_rotation camera_position
        x y) =
      pixelValAt sq spheres lights camera_rotation camera_position off := by
  obtain ⟨⟨h1, h2, h3, h4⟩, h5⟩ := h
  have hx : ((off % 600 : ℕ) : ℤ) - 300 = x := by omega
  have hy : 300 - ((off / 600 : ℕ) : ℤ) = y := by omega
  unfold pixelValAt
  rw [hx, hy]

lemma renderRowFold_apply (sq : ℚ → ℚ) (spheres : List Sphere)
    (lights : List Light) (camera_rotation : Matrix3)
    (camera_position : Vector3) (y : ℤ) :
    ∀ (l : List ℤ) (buf : ℕ → ℕ) (off : ℕ),
      (l.foldl (fun b x => PutPixel b x y
          (pixelColor sq spheres lights camera_rotation camera_position x y))
        buf) off =
      if ∃ x ∈ l,
          (0 ≤ 300 + x ∧ 300 + x < 600 ∧ 0 ≤ 300 - y ∧ 300 - y < 600) ∧
          (off : ℤ) = (300 + x) + 600 * (300 - y)
      then pixelValAt sq spheres lights camera_rotation camera_position off
      else buf off := by
  intro l
  induction l with
  | nil => intro buf off; simp
  | cons x xs ih =>
    intro buf off
    simp only [List.foldl_cons]
    rw [ih]
    by_cases hxs : ∃ x' ∈ xs,
        (0 ≤ 300 + x' ∧ 300 + x' < 600 ∧ 0 ≤ 300 - y ∧ 300 - y < 600) ∧
        (off : ℤ) = (300 + x') + 600 * (300 - y)
    · rw [if_pos hxs, if_pos (by
        obtain ⟨x', hm, hc⟩ := hxs
        exact ⟨x', List.mem_cons_of_mem _ hm, hc⟩)]
    · rw [if_neg hxs, PutPixel_apply]
      by_cases hx : (0 ≤ 300 + x ∧ 300 + x < 600 ∧ 0 ≤ 300 - y ∧
          300 - y < 600) ∧ (off : ℤ) = (300 + x) + 600 * (300 - y)
      · rw [if_pos hx, if_pos ⟨x, List.mem_cons_self _ _, hx⟩]
        exact pixel_write_value sq spheres lights camera_rotation
          camera_position x y off hx
      · rw [if_neg hx, if_neg (by
          rintro ⟨x', hm, hc⟩
          rcases List.mem_cons.1 hm with rfl | hm'
          · exact hx hc
          · exact hxs ⟨x', hm', hc⟩)]

/-- Pointwise description of one row render: exactly the offsets of
device row `300 − y` receive their pixel value. -/
lemma RenderRow_apply (sq : ℚ → ℚ) (spheres : List Sphere)
    (lights : List Light) (camera_rotation : Matrix3)
    (camera_position : Vector3) (y : ℤ) (buf : ℕ → ℕ) (off : ℕ) :
    RenderRow sq spheres lights camera_rotation camera_position y buf off =
      if off < 360000 ∧ 300 - ((off / 600 : ℕ) : ℤ) = y
      then pixelValAt sq spheres lights camera_rotation camera_position off
      else buf off := by
  unfold RenderRow
  rw [renderRowFold_apply]
  apply if_congr _ rfl rfl
  constructor
  · rintro ⟨x, _, ⟨⟨h1, h2, h3, h4⟩, h5⟩⟩
    constructor <;> omega
  · rintro ⟨hlt, hy⟩
    refine ⟨((off % 600 : ℕ) : ℤ) - 300, ?_, ⟨?_, ?_, ?_, ?_⟩, ?_⟩
    · simp only [List.mem_map, List.mem_range]
      refine ⟨off % 600, ?_, ?_⟩ <;> omega
    all_goals omega

lemma renderSecFold_apply (sq : ℚ → ℚ) (spheres : List Sphere)
    (lights : List Light) (camera_rotation : Matrix3)
    (camera_position : Vector3) :
    ∀ (l : List ℤ) (buf : ℕ → ℕ) (off : ℕ),
      (l.foldl (fun b y =>
          RenderRow sq spheres lights camera_rotation camera_position y b)
        buf) off =
      if ∃ y ∈ l, off < 360000 ∧ 300 - ((off / 600 : ℕ) : ℤ) = y
      then pixelValAt sq spheres lights camera_rotation camera_position off
      else buf off := by
  intro l
  induction l with
  | nil => intro buf off; simp
  | cons y ys ih =>
    intro buf off
    simp only [List.foldl_cons]
    rw [ih]
    by_cases hys : ∃ y' ∈ ys, off < 360000 ∧ 300 - ((off / 600 : ℕ) : ℤ) = y'
    · rw [if_pos hys, if_pos (by
        obtain ⟨y', hm, hc⟩ := hys
        exact ⟨y', List.mem_cons_of_mem _ hm, hc⟩)]
    · rw [if_neg hys, RenderRow_apply]
      by_cases hy : off < 360000 ∧ 300 - ((off / 600 : ℕ) : ℤ) = y
      · rw [if_pos hy, if_pos ⟨y, List.mem_cons_self _ _, hy⟩]
      · rw [if_neg hy, if_neg (by
          rintro ⟨y', hm, hc⟩
          rcases List.mem_cons.1 hm with rfl | hm'
          · exact hy hc
          · exact hys ⟨y', hm', hc⟩)]

/-- Pointwise description of `RenderSection start_y end_y`: exactly the
offsets whose device row decodes to a canvas row in `[start_y, end_y)`
receive their pixel value. -/
lemma RenderSection_apply (sq : ℚ → ℚ) (spheres : List Sphere)
    (lights : List Light) (camera_rotation : Matrix3)
    (camera_position : Vector3) (start_y end_y : ℤ) (buf : ℕ → ℕ)
    (off : ℕ) :
    RenderSection sq spheres lights camera_rotation camera_position
        start_y end_y buf off =
      if off < 360000 ∧ start_y ≤ 300 - ((off / 600 : ℕ) : ℤ) ∧
          300 - ((off / 600 : ℕ) : ℤ) < end_y
      then pixelValAt sq spheres lights camera_rotation camera_position off
      else buf off := by
  unfold RenderSection
  rw [renderSecFold_apply]
  apply if_congr _ rfl rfl
  constructor
  · rintro ⟨y, hmem, hlt, hy⟩
    simp only [List.mem_map, List.mem_range] at hmem
    obtain ⟨i, hi, hiy⟩ := hmem
    refine ⟨hlt, ?_, ?_⟩ <;> omega
  · rintro ⟨hlt, h1, h2⟩
    refine ⟨300 - ((off / 600 : ℕ) : ℤ), ?_, hlt, rfl⟩
    simp only [List.mem_map, List.mem_range]
    exact ⟨(300 - ((off / 600 : ℕ) : ℤ) - start_y).toNat, by omega, by omega⟩

lemma renderBands_apply (sq : ℚ → ℚ) (spheres : List Sphere)
    (lights : List Light) (camera_rotation : Matrix3)
    (camera_position : Vector3) :
    ∀ (L : List (ℤ × ℤ)) (buf : ℕ → ℕ) (off : ℕ),
      renderBands sq spheres lights camera_rotation camera_position L
          buf off =
      if ∃ p ∈ L, off < 360000 ∧ p.1 ≤ 300 - ((off / 600 : ℕ) : ℤ) ∧
          300 - ((off / 600 : ℕ) : ℤ) < p.2
      then pixelValAt sq spheres lights camera_rotation camera_position off
      else buf off := by
  intro L
  induction L with
  | nil => intro buf off; simp [renderBands]
  | cons p ps ih =>
    intro buf off
    simp only [renderBands, List.foldl_cons] at ih ⊢
    rw [ih]
    by_cases hps : ∃ p' ∈ ps, off < 360000 ∧
        p'.1 ≤ 300 - ((off / 600 : ℕ) : ℤ) ∧
        300 - ((off / 600 : ℕ) : ℤ) < p'.2
    · rw [if_pos hps, if_pos (by
        obtain ⟨p', hm, hc⟩ := hps
        exact ⟨p', List.mem_cons_of_mem _ hm, hc⟩)]
    · rw [if_neg hps, RenderSection_apply]
      by_cases hp : off < 360000 ∧ p.1 ≤ 300 - ((off / 600 : ℕ) : ℤ) ∧
          300 - ((off / 600 : ℕ) : ℤ) < p.2
      · rw [if_pos hp, if_pos ⟨p, List.mem_cons_self _ _, hp⟩]
      · rw [if_neg hp, if_neg (by
          rintro ⟨p', hm, hc⟩
          rcases List.mem_cons.1 hm with rfl | hm'
          · exact hp hc
          · exact hps ⟨p', hm', hc⟩)]

/-- The `N` bands of `WinMain` (with `N` evenly partitioning the canvas
height) cover, between them, exactly the full row range `[-300, 300)`. -/
lemma bands_cover (N : ℕ) (hN : 0 < N) (hdvd : N ∣ 600) (off : ℕ) :
    (∃ p ∈ bands N, off < 360000 ∧ p.1 ≤ 300 - ((off / 600 : ℕ) : ℤ) ∧
        300 - ((off / 600 : ℕ) : ℤ) < p.2) ↔
      (off < 360000 ∧ (-300 : ℤ) ≤ 300 - ((off / 600 : ℕ) : ℤ) ∧
        300 - ((off / 600 : ℕ) : ℤ) < 300) := by
  obtain ⟨w, hw⟩ := hdvd
  have hwpos : 0 < w :=
    Nat.pos_of_ne_zero (fun h => by rw [h, Nat.mul_zero] at hw; cases hw)
  have hNZ : ((N : ℕ) : ℤ) ≠ 0 := by exact_mod_cast hN.ne'
  have hwZ : (600 : ℤ) / (N : ℤ) = (w : ℤ) := by
    have h6 : (600 : ℤ) = (N : ℤ) * (w : ℤ) := by exact_mod_cast hw
    rw [h6, Int.mul_ediv_cancel_left _ hNZ]
  have h6Z : ((N : ℤ)) * (w : ℤ) = 600 := by exact_mod_cast hw.symm
  have hbridge : ((off / 600 : ℕ) : ℤ) = (off : ℤ) / 600 := by omega
  constructor
  · rintro ⟨p, hmem, hlt, hp1, hp2⟩
    simp only [bands, CANVAS_HEIGHT, List.mem_map, List.mem_range] at hmem
    obtain ⟨i, hi, rfl⟩ := hmem
    dsimp only at hp1 hp2
    rw [hwZ] at hp1 hp2
    norm_num at hp1 hp2
    refine ⟨hlt, ?_, ?_⟩
    · have hiw : (0 : ℤ) ≤ (i : ℤ) * (w : ℤ) := by positivity
      linarith [hbridge, hp1, hiw]
    · by_cases hlast : i = N - 1
      · rw [if_pos hlast] at hp2
        linarith [hbridge, hp2]
      · rw [if_neg hlast] at hp2
        have hiN : (i : ℤ) + 1 ≤ (N : ℤ) := by exact_mod_cast hi
        have hmul : ((i : ℤ) + 1) * (w : ℤ) ≤ (N : ℤ) * (w : ℤ) :=
          mul_le_mul_of_nonneg_right hiN (by positivity)
        linarith [hbridge, hp2, hmul, h6Z]
  · rintro ⟨hlt, h1, h2⟩
    have ht1 : (((300 - ((off / 600 : ℕ) : ℤ) + 300).toNat : ℕ) : ℤ) =
        300 - ((off / 600 : ℕ) : ℤ) + 300 := by omega
    set t : ℕ := (300 - ((off / 600 : ℕ) : ℤ) + 300).toNat with htdef
    have ht600 : t < 600 := by omega
    have hiN : t / w < N := by
      rw [Nat.div_lt_iff_lt_mul hwpos]
      calc t < 600 := ht600
        _ = N * w := hw
    have hlow : t / w * w ≤ t := Nat.div_mul_le_self t w
    have hhigh : t < (t / w + 1) * w := by
      have hdm := Nat.div_add_mod t w
      have hml := Nat.mod_lt t hwpos
      calc t = w * (t / w) + t % w := hdm.symm
        _ < w * (t / w) + w := Nat.add_lt_add_left hml _
        _ = (t / w + 1) * w := by ring
    have hlowZ : ((t / w : ℕ) : ℤ) * (w : ℤ) ≤ (t : ℤ) := by exact_mod_cast hlow
    have hhighZ : (t : ℤ) < (((t / w : ℕ) : ℤ) + 1) * (w : ℤ) := by
      exact_mod_cast hhigh
    have hmem : (((t / w : ℕ) : ℤ) * (w : ℤ) - 300,
        if t / w = N - 1 then (300 : ℤ)
        else (((t / w : ℕ) : ℤ) + 1) * (w : ℤ) - 300) ∈ bands N := by
      simp only [bands, CANVAS_HEIGHT, List.mem_map, List.mem_range]
      refine ⟨t / w, hiN, ?_⟩
      rw [hwZ]
      split_ifs <;> norm_num
    refine ⟨_, hmem, hlt, ?_, ?_⟩
    · dsimp only
      linarith [hlowZ, ht1]
    · dsimp only
      by_cases hlast : t / w = N - 1
      · rw [if_pos hlast]
        omega
      · rw [if_neg hlast]
        linarith [hhighZ, ht1]

/-- C10: a `PutPixel(x, y, color)` call whose mapped device
coordinate `(W/2 + x, H/2 − y)` falls outside `[0, W) × [0, H)` leaves
the canvas buffer completely unchanged; otherwise exactly the one
buffer element at offset `(W/2 + x) + W·(H/2 − y)` is written (with the
packed colour) and every other element is unchanged. -/
theorem PutPixel_frame (buf : ℕ → ℕ) (x y : ℤ) (color : Color) (off : ℕ) :
    PutPixel buf x y color off =
      if (0 ≤ CANVAS_WIDTH / 2 + x ∧ CANVAS_WIDTH / 2 + x < CANVAS_WIDTH ∧
          0 ≤ CANVAS_HEIGHT / 2 - y ∧ CANVAS_HEIGHT / 2 - y < CANVAS_HEIGHT) ∧
          (off : ℤ) = (CANVAS_WIDTH / 2 + x) +
            CANVAS_WIDTH * (CANVAS_HEIGHT / 2 - y)
      then rgbValue color else buf off := by
  rw [PutPixel_apply]
  apply if_congr _ rfl rfl
  simp only [CANVAS_WIDTH, CANVAS_HEIGHT]
  omega

/-- C7: rendering the full canvas by partitioning the rows into `N`
contiguous bands (as `WinMain` does) and running `RenderSection` once
per band, in any order, produces a pixel-for-pixel identical output
buffer to running `RenderSection` once over all rows, for any `N` that
evenly partitions the canvas height — each pixel's colour is a pure
function of the scene and the pixel coordinate, and distinct pixels
write distinct buffer offsets. -/
theorem renderBands_eq_single (sq : ℚ → ℚ) (spheres : List Sphere)
    (lights : List Light) (camera_rotation : Matrix3)
    (camera_position : Vector3) (N : ℕ) (L : List (ℤ × ℤ))
    (buf : ℕ → ℕ) (hN : 0 < N) (hdvd : N ∣ 600)
    (hperm : List.Perm L (bands N)) :
    renderBands sq spheres lights camera_rotation camera_position L buf =
      RenderSection sq spheres lights camera_rotation camera_position
        (-300) 300 buf := by
  funext off
  rw [renderBands_apply, RenderSection_apply]
  apply if_congr _ rfl rfl
  constructor
  · rintro ⟨p, hp, hc⟩
    exact (bands_cover N hN hdvd off).1 ⟨p, hperm.mem_iff.1 hp, hc⟩
  · intro h
    obtain ⟨p, hp, hc⟩ := (bands_cover N hN hdvd off).2 h
    exact ⟨p, hperm.mem_iff.2 hp, hc⟩

/-- Witness for C7: two bands rendered in swapped order over an empty
scene reproduce the single full-range render. -/
theorem renderBands_eq_single_witness :
    (0 < 2 ∧ 2 ∣ 600 ∧
      List.Perm [((0 : ℤ), (300 : ℤ)), ((-300 : ℤ), (0 : ℤ))] (bands 2)) ∧
    renderBands ratSqrt [] [] ⟨⟨1, 0, 0⟩, ⟨0, 1, 0⟩, ⟨0, 0, 1⟩⟩ ⟨0, 0, 0⟩
        [((0 : ℤ), (300 : ℤ)), ((-300 : ℤ), (0 : ℤ))] (fun _ => 0) =
      RenderSection ratSqrt [] [] ⟨⟨1, 0, 0⟩, ⟨0, 1, 0⟩, ⟨0, 0, 1⟩⟩
        ⟨0, 0, 0⟩ (-300) 300 (fun _ => 0) :=
  ⟨⟨by decide, by decide, by with_unfolding_all decide⟩,
   renderBands_eq_single ratSqrt [] [] ⟨⟨1, 0, 0⟩, ⟨0, 1, 0⟩, ⟨0, 0, 1⟩⟩
     ⟨0, 0, 0⟩ 2 [((0 : ℤ), (300 : ℤ)), ((-300 : ℤ), (0 : ℤ))] (fun _ => 0)
     (by decide) (by decide) (by with_unfolding_all decide)⟩

end Raytracer
